import Mathlib

/-!
Verification of `fastapi_redis_cache/cache.py`: the `cache` and `expires`
decorators and the `calculate_ttl` helper. The decorators' control flow is
embedded as pure step functions over an explicit store state; the external
Redis client (`FastApiRedisCache`), which lives outside `cache.py`, is
modelled at its interface following the specification.
-/

namespace FastApiRedisCache

/-- Constant `ONE_YEAR_IN_SECONDS` imported from `fastapi_redis_cache.util`:
the number of seconds in one (365-day) year. -/
def ONE_YEAR_IN_SECONDS : Int := 31536000

/-- The `expire` argument of the `cache` decorator: either a plain integer
count of seconds, or a Python `timedelta` represented exactly by its total
length in microseconds (a `timedelta` stores days, seconds and microseconds,
all integers, so total microseconds is an exact representation). -/
inductive Expire where
  | int (n : Int)
  | timedelta (microseconds : Int)
deriving DecidableEq, Repr

/-- Embedding of `calculate_ttl` (cache.py lines 221-228): a `timedelta` is
first converted by `int(expire.total_seconds())`, i.e. its total seconds
truncated toward zero (`Int.tdiv` truncates toward zero), then the result is
capped at `ONE_YEAR_IN_SECONDS` with `min`. -/
def calculate_ttl : Expire → Int
  | .int n => min n ONE_YEAR_IN_SECONDS
  | .timedelta us => min (Int.tdiv us 1000000) ONE_YEAR_IN_SECONDS

/-- Python truthiness of an optional string (`if tag:`): `None` and the empty
string are falsy, every other string is truthy. -/
def pyTruthy : Option String → Bool
  | some s => s != ""
  | none => false

/-- Modelled from the spec: the external key-value store state visible to the
decorators. `entries` maps a cache key to its serialized payload (write-with-
ttl, read, delete); `tagSets` maps a tag to its member cache keys (set-add,
set-remove, set-members). The store holds no other state the decorators read. -/
structure Store where
  entries : List (String × String)
  tagSets : List (String × List String)
deriving DecidableEq, Repr

/-- Modelled from the spec: `check_cache(key)` read — the stored serialized
payload at `key`, or absent. -/
def storeGet (st : Store) (k : String) : Option String :=
  st.entries.lookup k

/-- Modelled from the spec: `writeWithTtl` — overwrites any prior value at
the key. -/
def storeSet (st : Store) (k v : String) : Store :=
  { st with entries := (k, v) :: st.entries.filter (fun p => p.1 != k) }

/-- Modelled from the spec: `redis.delete(key)` — removes the entry at the
key, a no-op when absent. -/
def storeDelete (st : Store) (k : String) : Store :=
  { st with entries := st.entries.filter (fun p => p.1 != k) }

/-- Modelled from the spec: `get_tagged_keys(tag)` / `tagSetMembers` — the
current members of the tag's set (empty when the tag set is absent). -/
def tagMembers (st : Store) (t : String) : List String :=
  (st.tagSets.lookup t).getD []

/-- Modelled from the spec: `add_key_to_tag_set(tag, key)` — set semantics
(`SADD`): inserts the key into the tag's set, a no-op when already present. -/
def add_key_to_tag_set (st : Store) (t k : String) : Store :=
  let ms := tagMembers st t
  if k ∈ ms then st
  else { st with tagSets := (t, k :: ms) :: st.tagSets.filter (fun p => p.1 != t) }

/-- Modelled from the spec: `redis.srem(tag, key)` — removes the key from the
tag's set. -/
def srem (st : Store) (t k : String) : Store :=
  { st with
    tagSets := (t, (tagMembers st t).filter (fun m => m != k))
      :: st.tagSets.filter (fun p => p.1 != t) }

/-- Modelled from the spec: the stored entry's fingerprint (ETag), derived
deterministically from the stored serialized payload; `cache.py` obtains it
through the client, which is outside this file's source. -/
def etagOf (payload : String) : String :=
  "W/" ++ payload

/-- Modelled from the spec: `requested_resource_not_modified(request,
in_cache)` — whether the incoming request carries a validator header that
matches the stored payload's fingerprint. -/
def requested_resource_not_modified (reqValidator : Option String)
    (payload : String) : Bool :=
  reqValidator == some (etagOf payload)

/-- Per-call context of the `cache` decorator that comes from outside the
store state: connectivity (`not_connected` negated), the client's
`request_is_not_cacheable(request)` verdict, the request's incoming validator
header, and the success flag the client's `add_to_cache` write returns. -/
structure CacheCtx where
  connected : Bool
  notCacheable : Bool
  reqValidator : Option String
  writeSucceeds : Bool
deriving DecidableEq, Repr

/-- Outcome of one `cache.inner_wrapper` call, as seen by the caller:
`bypass` — handler executed with no caching behavior; `notModified` — hit
with matching validator, empty body, 304 status, fingerprint attached;
`hit` — hit, full cached body with fingerprint attached; `fresh` — miss,
handler result returned with the write's success flag; `raised` — the
handler invocation raised (or was cancelled) and the exception propagates. -/
inductive CacheResult (α : Type) where
  | bypass (result : α)
  | notModified (etag : String)
  | hit (body : String) (etag : String)
  | fresh (result : α) (cached : Bool)
  | raised
deriving DecidableEq, Repr

/-- Embedding of `cache(...)`'s `inner_wrapper` (cache.py lines 46-126).
`handler` is the wrapped function's outcome (`none` when its invocation
raises or is cancelled); `key` is the key `get_cache_key` derives for this
call. Control flow follows the source: bypass when not connected or the
request is not cacheable; on a store hit, evaluate the conditional request
and return 304 or the cached body (fingerprint attached in both cases); on a
miss, run the handler, write with `calculate_ttl expire`, add the key to the
tag set whenever a truthy tag was supplied (regardless of the write's success
flag), and return the fresh result. -/
def cacheStep {α : Type} (serialize : α → String) (expire : Expire)
    (tag : Option String) (key : String) (handler : Option α)
    (ctx : CacheCtx) (st : Store) : CacheResult α × Store :=
  if !ctx.connected || ctx.notCacheable then
    match handler with
    | none => (.raised, st)
    | some r => (.bypass r, st)
  else
    match storeGet st key with
    | some payload =>
        if requested_resource_not_modified ctx.reqValidator payload then
          (.notModified (etagOf payload), st)
        else
          (.hit payload (etagOf payload), st)
    | none =>
        match handler with
        | none => (.raised, st)
        | some r =>
            let ttl := calculate_ttl expire
            let _ := ttl
            let cached := ctx.writeSucceeds
            let st1 := if cached then storeSet st key (serialize r) else st
            let st2 :=
              if pyTruthy tag then add_key_to_tag_set st1 (tag.getD "") key
              else st1
            (.fresh r cached, st2)

/-- One keyword argument of an `expires`-decorated call: its name, its
`f"{value}"` rendering, and whether its runtime type is in the client's
`ignore_arg_types` (request/response-like, stripped before matching). -/
structure Kwarg where
  name : String
  value : String
  ignoredType : Bool
deriving DecidableEq, Repr

/-- Embedding of the kwarg filtering loop (cache.py lines 171-174): remove
every kwarg whose runtime type is in `ignore_arg_types`. -/
def filteredKwargs (kwargs : List Kwarg) : List Kwarg :=
  kwargs.filter (fun k => !k.ignoredType)

/-- Embedding of the search-string construction (cache.py lines 176-181):
the concatenation, in dict order, of `(name=value)` for each filtered kwarg. -/
def searchString (kwargs : List Kwarg) : String :=
  String.join ((filteredKwargs kwargs).map
    (fun k => "(" ++ k.name ++ "=" ++ k.value ++ ")"))

/-- Python's `needle in hay` substring test on the encoded strings. -/
def strContains (hay needle : String) : Bool :=
  decide (needle.toList <:+: hay.toList)

/-- Embedding of the deletion loop (cache.py lines 184-195): for each found
key, in order, delete the entry and remove the key from the tag's set. -/
def invalidateKeys (t : String) (ks : List String) (st : Store) : Store :=
  ks.foldl (fun s k => srem (storeDelete s k) t k) st

/-- Embedding of `expires(tag, arg)`'s `inner_wrapper` (cache.py lines
150-201). The handler always runs first and its result is always returned
serialized. When connected, the tag is truthy and kwargs is nonempty, the
search string is built from the type-filtered kwargs, the tag's members
containing it as a substring are collected, and each is deleted from the
store and removed from the tag set. The `arg` parameter is accepted but,
as in the source, never used. -/
def expiresStep {α : Type} (serialize : α → String) (tag : Option String)
    (arg : Option String) (kwargs : List Kwarg) (handlerResult : α)
    (connected : Bool) (st : Store) : String × Store :=
  let _ := arg
  let st1 :=
    if connected && pyTruthy tag && !kwargs.isEmpty then
      let t := tag.getD ""
      let search := searchString kwargs
      let foundKeys := (tagMembers st t).filter (fun k => strContains k search)
      invalidateKeys t foundKeys st
    else st
  (serialize handlerResult, st1)

/-! Helper lemmas about the store operations. -/

lemma lookup_filter_ne {β : Type} (l : List (String × β)) (k k' : String)
    (h : k ≠ k') : (l.filter (fun p => p.1 != k')).lookup k = l.lookup k := by
  induction l with
  | nil => rfl
  | cons hd tl ih =>
    by_cases hh : hd.1 = k'
    · have h1 : (hd.1 != k') = false := by simp [hh]
      have hk : (k == hd.1) = false := by simp [hh, h]
      simp [List.filter_cons, h1, List.lookup, hk, ih]
    · have h1 : (hd.1 != k') = true := by simp [hh]
      by_cases hk : k = hd.1
      · have hk2 : (k == hd.1) = true := by simp [hk]
        simp [List.filter_cons, h1, List.lookup, hk2]
      · have hk2 : (k == hd.1) = false := by simp [hk]
        simp [List.filter_cons, h1, List.lookup, hk2, ih]

lemma lookup_filter_self {β : Type} (l : List (String × β)) (k : String) :
    (l.filter (fun p => p.1 != k)).lookup k = none := by
  induction l with
  | nil => rfl
  | cons hd tl ih =>
    by_cases hh : hd.1 = k
    · have h1 : (hd.1 != k) = false := by simp [hh]
      simp [List.filter_cons, h1, ih]
    · have h1 : (hd.1 != k) = true := by simp [hh]
      have hk2 : (k == hd.1) = false := by simp [Ne.symm hh]
      simp [List.filter_cons, h1, List.lookup, hk2, ih]

lemma storeGet_storeDelete (st : Store) (k k' : String) :
    storeGet (storeDelete st k') k = if k = k' then none else storeGet st k := by
  by_cases h : k = k'
  · simp [storeGet, storeDelete, h, lookup_filter_self]
  · simp [storeGet, storeDelete, h, lookup_filter_ne _ _ _ h]

lemma entries_srem (st : Store) (t k : String) :
    (srem st t k).entries = st.entries := rfl

lemma tagSets_storeDelete (st : Store) (k : String) :
    (storeDelete st k).tagSets = st.tagSets := rfl

lemma tagMembers_srem_same (st : Store) (t k : String) :
    tagMembers (srem st t k) t = (tagMembers st t).filter (fun m => m != k) := by
  simp [tagMembers, srem, List.lookup]

lemma tagMembers_srem_other (st : Store) (t t' k : String) (h : t ≠ t') :
    tagMembers (srem st t' k) t = tagMembers st t := by
  have hk : (t == t') = false := by simp [h]
  simp [tagMembers, srem, List.lookup, hk, lookup_filter_ne _ _ _ h]

lemma storeGet_srem (st : Store) (t k k' : String) :
    storeGet (srem st t k') k = storeGet st k := rfl

lemma tagMembers_storeDelete (st : Store) (t k : String) :
    tagMembers (storeDelete st k) t = tagMembers st t := rfl

lemma storeGet_invalidateKeys (t : String) (ks : List String) (st : Store)
    (k : String) :
    storeGet (invalidateKeys t ks st) k
      = if k ∈ ks then none else storeGet st k := by
  induction ks generalizing st with
  | nil => simp [invalidateKeys]
  | cons k' ks ih =>
    have hstep : invalidateKeys t (k' :: ks) st
        = invalidateKeys t ks (srem (storeDelete st k') t k') := rfl
    rw [hstep, ih, storeGet_srem, storeGet_storeDelete]
    by_cases h1 : k ∈ ks
    · simp [h1]
    · by_cases h2 : k = k'
      · simp [h1, h2]
      · simp [h1, h2]

lemma filter_bne_filter_not_mem (l : List String) (k' : String)
    (ks : List String) :
    (l.filter (fun m => m != k')).filter (fun m => decide (m ∉ ks))
      = l.filter (fun m => decide (m ∉ k' :: ks)) := by
  rw [List.filter_filter]
  apply List.filter_congr
  intro a _
  by_cases h1 : a = k' <;> by_cases h2 : a ∈ ks <;> simp [h1, h2]

lemma tagMembers_invalidateKeys (t : String) (ks : List String) (st : Store) :
    tagMembers (invalidateKeys t ks st) t
      = (tagMembers st t).filter (fun m => decide (m ∉ ks)) := by
  induction ks generalizing st with
  | nil => simp [invalidateKeys]
  | cons k' ks ih =>
    have hstep : invalidateKeys t (k' :: ks) st
        = invalidateKeys t ks (srem (storeDelete st k') t k') := rfl
    rw [hstep, ih, tagMembers_srem_same, tagMembers_storeDelete,
      filter_bne_filter_not_mem]

lemma tagMembers_invalidateKeys_other (t t' : String) (ks : List String)
    (st : Store) (h : t ≠ t') :
    tagMembers (invalidateKeys t' ks st) t = tagMembers st t := by
  induction ks generalizing st with
  | nil => simp [invalidateKeys]
  | cons k' ks ih =>
    have hstep : invalidateKeys t' (k' :: ks) st
        = invalidateKeys t' ks (srem (storeDelete st k') t' k') := rfl
    rw [hstep, ih, tagMembers_srem_other _ _ _ _ h, tagMembers_storeDelete]

lemma strContains_empty (s : String) : strContains s "" = true := by
  simp [strContains]

lemma entries_add_key_to_tag_set (st : Store) (t k : String) :
    (add_key_to_tag_set st t k).entries = st.entries := by
  unfold add_key_to_tag_set
  by_cases h : k ∈ tagMembers st t <;> simp [h]

lemma tagMembers_storeSet (st : Store) (k v t : String) :
    tagMembers (storeSet st k v) t = tagMembers st t := rfl

lemma mem_tagMembers_add (st : Store) (t' k' t k : String)
    (h : k ∈ tagMembers (add_key_to_tag_set st t' k') t) :
    k ∈ tagMembers st t ∨ (t = t' ∧ k = k') := by
  unfold add_key_to_tag_set at h
  by_cases hm : k' ∈ tagMembers st t'
  · simp only [if_pos hm] at h
    exact Or.inl h
  · simp only [if_neg hm] at h
    by_cases ht : t = t'
    · subst ht
      simp only [tagMembers, List.lookup, beq_self_eq_true,
        Option.getD_some] at h
      rcases List.mem_cons.mp h with h | h
      · exact Or.inr ⟨rfl, h⟩
      · exact Or.inl h
    · have hb : (t == t') = false := by simp [ht]
      simp only [tagMembers, List.lookup, hb,
        lookup_filter_ne _ _ _ ht] at h
      exact Or.inl h

/-! Theorems settling the claims. -/

/-- C5: `calculate_ttl` clamps to at most 31,536,000 seconds: an integer
input `n` yields `min n 31536000`; a duration is converted to whole seconds
truncating toward zero and then clamped; a two-year duration yields
31536000 and a 3600-second timedelta yields 3600. The function is total, so
no input raises. -/
theorem C5_calculate_ttl_clamp :
    (∀ n : Int, calculate_ttl (.int n) = min n 31536000) ∧
    (∀ us : Int,
      calculate_ttl (.timedelta us) = min (Int.tdiv us 1000000) 31536000) ∧
    calculate_ttl (.timedelta (63072000 * 1000000)) = 31536000 ∧
    calculate_ttl (.int 63072000) = 31536000 ∧
    calculate_ttl (.timedelta 3600000000) = 3600 :=
  ⟨fun _ => rfl, fun _ => rfl, by decide, by decide, by decide⟩

/-- C10: the `arg` parameter of `expires` has no effect: for any two values
`a1`, `a2` of `arg` and otherwise identical inputs, the wrapper's returned
response and resulting store state are identical. -/
theorem C10_arg_has_no_effect {α : Type} (serialize : α → String)
    (tag : Option String) (a1 a2 : Option String) (kwargs : List Kwarg)
    (r : α) (connected : Bool) (st : Store) :
    expiresStep serialize tag a1 kwargs r connected st
      = expiresStep serialize tag a2 kwargs r connected st := rfl

/-- C7: when the store is disconnected or the request is not cacheable, the
`cache` decorator executes the handler and returns its result with the store
left completely unchanged (no read, no write, no tag mutation), and a second
identical call behaves identically, so neither call produces a stored
entry. -/
theorem C7_bypass_leaves_store_unchanged {α : Type} (serialize : α → String)
    (expire : Expire) (tag : Option String) (key : String) (r : α)
    (ctx : CacheCtx) (st : Store)
    (hb : ctx.connected = false ∨ ctx.notCacheable = true) :
    cacheStep serialize expire tag key (some r) ctx st = (.bypass r, st) ∧
    cacheStep serialize expire tag key (some r) ctx
        (cacheStep serialize expire tag key (some r) ctx st).2
      = (.bypass r, st) := by
  have hg : (!ctx.connected || ctx.notCacheable) = true := by
    rcases hb with h | h <;> simp [h]
  have h1 : cacheStep serialize expire tag key (some r) ctx st
      = (.bypass r, st) := by
    simp [cacheStep, hg]
  refine ⟨h1, ?_⟩
  rw [h1]
  exact h1

/-- C7 witness: a disconnected call at concrete inputs bypasses and leaves
the empty store empty, twice. -/
theorem C7_bypass_witness :
    ((⟨false, false, none, true⟩ : CacheCtx).connected = false ∨
      (⟨false, false, none, true⟩ : CacheCtx).notCacheable = true) ∧
    cacheStep (fun s : String => s) (.int 60) (some "t") "k" (some "v")
        ⟨false, false, none, true⟩ ⟨[], []⟩
      = (.bypass "v", ⟨[], []⟩) :=
  ⟨Or.inl rfl,
    (C7_bypass_leaves_store_unchanged (fun s : String => s) (.int 60)
      (some "t") "k" "v" ⟨false, false, none, true⟩ ⟨[], []⟩
      (Or.inl rfl)).1⟩

/-- C9: on the miss path (connected, cacheable, key absent), if the wrapped
handler's invocation raises or is cancelled, the exception propagates and the
store state is unchanged: no cache write and no tag-set addition occurs. -/
theorem C9_handler_failure_writes_nothing {α : Type} (serialize : α → String)
    (expire : Expire) (tag : Option String) (key : String) (ctx : CacheCtx)
    (st : Store) (hc : ctx.connected = true) (hn : ctx.notCacheable = false)
    (hmiss : storeGet st key = none) :
    cacheStep serialize expire tag key (none : Option α) ctx st
      = (.raised, st) := by
  simp [cacheStep, hc, hn, hmiss]

/-- C9 witness: a concrete miss-path call whose handler raises leaves the
store unchanged. -/
theorem C9_handler_failure_witness :
    (⟨true, false, none, true⟩ : CacheCtx).connected = true ∧
    storeGet ⟨[], []⟩ "k" = none ∧
    cacheStep (fun s : String => s) (.int 60) (some "t") "k"
        (none : Option String) ⟨true, false, none, true⟩ ⟨[], []⟩
      = (.raised, ⟨[], []⟩) :=
  ⟨rfl, rfl,
    C9_handler_failure_writes_nothing (fun s : String => s) (.int 60)
      (some "t") "k" ⟨true, false, none, true⟩ ⟨[], []⟩ rfl rfl rfl⟩

/-- C6: on the miss path, when the store write fails (the write's success
flag is false), the decorator still returns the fresh handler result to the
caller (as `fresh r false`, with the handler's outcome unchanged) and
performs no retry: the entry table is left unchanged. -/
theorem C6_write_failure_returns_fresh {α : Type} (serialize : α → String)
    (expire : Expire) (tag : Option String) (key : String) (r : α)
    (ctx : CacheCtx) (st : Store) (hc : ctx.connected = true)
    (hn : ctx.notCacheable = false) (hmiss : storeGet st key = none)
    (hw : ctx.writeSucceeds = false) :
    (cacheStep serialize expire tag key (some r) ctx st).1 = .fresh r false ∧
    ((cacheStep serialize expire tag key (some r) ctx st).2).entries
      = st.entries := by
  by_cases ht : pyTruthy tag = true <;>
    simp [cacheStep, hc, hn, hmiss, hw, ht, entries_add_key_to_tag_set]

/-- C6 witness: a concrete failed write still yields the fresh result and an
unchanged entry table. -/
theorem C6_write_failure_witness :
    (⟨true, false, none, false⟩ : CacheCtx).connected = true ∧
    (⟨true, false, none, false⟩ : CacheCtx).writeSucceeds = false ∧
    (cacheStep (fun s : String => s) (.int 60) (some "t") "k" (some "v")
        ⟨true, false, none, false⟩ ⟨[], []⟩).1 = .fresh "v" false ∧
    ((cacheStep (fun s : String => s) (.int 60) (some "t") "k" (some "v")
        ⟨true, false, none, false⟩ ⟨[], []⟩).2).entries = [] :=
  ⟨rfl, rfl,
    (C6_write_failure_returns_fresh (fun s : String => s) (.int 60) (some "t")
      "k" "v" ⟨true, false, none, false⟩ ⟨[], []⟩ rfl rfl rfl rfl).1,
    (C6_write_failure_returns_fresh (fun s : String => s) (.int 60) (some "t")
      "k" "v" ⟨true, false, none, false⟩ ⟨[], []⟩ rfl rfl rfl rfl).2⟩

/-- C4: on a cache hit, if the incoming validator matches the stored
payload's fingerprint the call returns the empty-body not-modified response,
otherwise (mismatched or absent validator) it returns the full cached body;
the stored fingerprint is attached as the outgoing validator in both
outcomes, and the store is unchanged. -/
theorem C4_hit_conditional_request {α : Type} (serialize : α → String)
    (expire : Expire) (tag : Option String) (key : String)
    (handler : Option α) (ctx : CacheCtx) (st : Store) (payload : String)
    (hc : ctx.connected = true) (hn : ctx.notCacheable = false)
    (hhit : storeGet st key = some payload) :
    (ctx.reqValidator = some (etagOf payload) →
      cacheStep serialize expire tag key handler ctx st
        = (.notModified (etagOf payload), st)) ∧
    (ctx.reqValidator ≠ some (etagOf payload) →
      cacheStep serialize expire tag key handler ctx st
        = (.hit payload (etagOf payload), st)) := by
  constructor <;> intro h <;>
    simp [cacheStep, hc, hn, hhit, requested_resource_not_modified, h]

/-- C4 witness: a concrete hit with matching validator yields the
not-modified response carrying the fingerprint. -/
theorem C4_hit_conditional_witness :
    (⟨true, false, some (etagOf "p"), true⟩ : CacheCtx).connected = true ∧
    storeGet ⟨[("k", "p")], []⟩ "k" = some "p" ∧
    cacheStep (fun s : String => s) (.int 60) none "k" (some "v")
        ⟨true, false, some (etagOf "p"), true⟩ ⟨[("k", "p")], []⟩
      = (.notModified (etagOf "p"), ⟨[("k", "p")], []⟩) :=
  ⟨rfl, rfl,
    (C4_hit_conditional_request (fun s : String => s) (.int 60) none "k"
      (some "v") ⟨true, false, some (etagOf "p"), true⟩ ⟨[("k", "p")], []⟩
      "p" rfl rfl rfl).1 rfl⟩

lemma expiresStep_snd_connected {α : Type} (serialize : α → String)
    (t : String) (arg : Option String) (kwargs : List Kwarg) (r : α)
    (st : Store) (ht : t ≠ "") (hkw : kwargs ≠ []) :
    (expiresStep serialize (some t) arg kwargs r true st).2
      = invalidateKeys t
          ((tagMembers st t).filter
            (fun k => strContains k (searchString kwargs))) st := by
  have hpt : pyTruthy (some t) = true := by simp [pyTruthy, ht]
  have hke : kwargs.isEmpty = false := by simp [hkw]
  simp [expiresStep, hpt, hke]

/-- C1: invalidating a tag whose filtered argument set is empty (every kwarg
was stripped as a non-cacheable type) removes all of the tag's current
members: afterward the tag's set is empty and every former member key is
deleted from the store. -/
theorem C1_empty_filter_invalidates_all {α : Type} (serialize : α → String)
    (arg : Option String) (kwargs : List Kwarg) (r : α) (st : Store)
    (t : String) (ht : t ≠ "") (hkw : kwargs ≠ [])
    (hfilt : filteredKwargs kwargs = []) :
    tagMembers ((expiresStep serialize (some t) arg kwargs r true st).2) t
      = [] ∧
    ∀ k ∈ tagMembers st t,
      storeGet ((expiresStep serialize (some t) arg kwargs r true st).2) k
        = none := by
  have hsearch : searchString kwargs = "" := by
    simp only [searchString, hfilt, List.map_nil]
    rfl
  have hfound : (tagMembers st t).filter
      (fun k => strContains k (searchString kwargs)) = tagMembers st t := by
    rw [hsearch]
    exact List.filter_eq_self.mpr (fun a _ => strContains_empty a)
  rw [expiresStep_snd_connected serialize t arg kwargs r st ht hkw, hfound]
  constructor
  · rw [tagMembers_invalidateKeys]
    exact List.filter_eq_nil_iff.mpr (fun a ha => by simp [ha])
  · intro k hk
    rw [storeGet_invalidateKeys, if_pos hk]

/-- C1 witness: with one request-typed kwarg (stripped, so the filter is
empty), invalidating tag t empties its two-member set and deletes both
entries; shown here for member k1. -/
theorem C1_empty_filter_witness :
    ("t" ≠ "" ∧ [(⟨"request", "R", true⟩ : Kwarg)] ≠ [] ∧
      filteredKwargs [⟨"request", "R", true⟩] = []) ∧
    tagMembers ((expiresStep (fun s : String => s) (some "t") none
        [⟨"request", "R", true⟩] "r" true
        ⟨[("k1", "a"), ("k2", "b")], [("t", ["k1", "k2"])]⟩).2) "t" = [] ∧
    storeGet ((expiresStep (fun s : String => s) (some "t") none
        [⟨"request", "R", true⟩] "r" true
        ⟨[("k1", "a"), ("k2", "b")], [("t", ["k1", "k2"])]⟩).2) "k1"
      = none :=
  ⟨⟨by decide, by decide, rfl⟩,
    (C1_empty_filter_invalidates_all (fun s : String => s) none
      [⟨"request", "R", true⟩] "r"
      ⟨[("k1", "a"), ("k2", "b")], [("t", ["k1", "k2"])]⟩ "t"
      (by decide) (by decide) rfl).1,
    (C1_empty_filter_invalidates_all (fun s : String => s) none
      [⟨"request", "R", true⟩] "r"
      ⟨[("k1", "a"), ("k2", "b")], [("t", ["k1", "k2"])]⟩ "t"
      (by decide) (by decide) rfl).2 "k1" (by decide)⟩

/-- C8: the `expires` decorator always executes the wrapped handler first
and always returns its result serialized as the response body; when there is
no connection, no truthy tag, or no call arguments, the store is left
unchanged (no invalidation, no mutation). -/
theorem C8_expires_always_returns_serialized {α : Type}
    (serialize : α → String) (tag arg : Option String) (kwargs : List Kwarg)
    (r : α) (connected : Bool) (st : Store) :
    (expiresStep serialize tag arg kwargs r connected st).1 = serialize r ∧
    ((connected = false ∨ pyTruthy tag = false ∨ kwargs = []) →
      (expiresStep serialize tag arg kwargs r connected st).2 = st) := by
  constructor
  · rfl
  · intro h
    have hg : (connected && pyTruthy tag && !kwargs.isEmpty) = false := by
      rcases h with h | h | h <;> simp [h]
    simp [expiresStep, hg]

/-- C8 witness: a disconnected concrete call returns the serialized handler
result and leaves the store untouched. -/
theorem C8_expires_witness :
    ((expiresStep (fun s : String => s) (some "t") none
        [⟨"id", "1", false⟩] "r" false
        ⟨[("k", "v")], [("t", ["k"])]⟩).1 = "r") ∧
    ((false = false ∨ pyTruthy (some "t") = false ∨
        [(⟨"id", "1", false⟩ : Kwarg)] = []) ∧
      (expiresStep (fun s : String => s) (some "t") none
          [⟨"id", "1", false⟩] "r" false
          ⟨[("k", "v")], [("t", ["k"])]⟩).2
        = ⟨[("k", "v")], [("t", ["k"])]⟩) :=
  ⟨(C8_expires_always_returns_serialized (fun s : String => s) (some "t")
      none [⟨"id", "1", false⟩] "r" false
      ⟨[("k", "v")], [("t", ["k"])]⟩).1,
    Or.inl rfl,
    (C8_expires_always_returns_serialized (fun s : String => s) (some "t")
      none [⟨"id", "1", false⟩] "r" false
      ⟨[("k", "v")], [("t", ["k"])]⟩).2 (Or.inl rfl)⟩

/-- C2 counterexample: with filtered kwargs id pairs (a=1) and (b=2), the
tag member key "(b=2)(a=1)" contains each pair as a substring, yet the
invalidation call deletes nothing: the code matches only the single
concatenated string "(a=1)(b=2)", so order and adjacency do matter, refuting
the claim's iff. -/
theorem C2_counterexample_order_matters :
    strContains "(b=2)(a=1)" "(a=1)" = true ∧
    strContains "(b=2)(a=1)" "(b=2)" = true ∧
    filteredKwargs [⟨"a", "1", false⟩, ⟨"b", "2", false⟩]
      = [⟨"a", "1", false⟩, ⟨"b", "2", false⟩] ∧
    (expiresStep (fun s : String => s) (some "users") none
        [⟨"a", "1", false⟩, ⟨"b", "2", false⟩] "r" true
        ⟨[("(b=2)(a=1)", "v")], [("users", ["(b=2)(a=1)"])]⟩).2
      = ⟨[("(b=2)(a=1)", "v")], [("users", ["(b=2)(a=1)"])]⟩ := by
  refine ⟨by decide, by decide, rfl, by decide⟩

/-- C2 amended: a tag member is deleted from the store and removed from the
tag set if and only if it contains, as one contiguous substring, the
concatenation of all the filtered call-argument pairs rendered `(name=value)`
in their kwargs order — not merely each pair somewhere in the key. -/
theorem C2_amended_concatenated_match {α : Type} (serialize : α → String)
    (arg : Option String) (kwargs : List Kwarg) (r : α) (st : Store)
    (t k : String) (ht : t ≠ "") (hkw : kwargs ≠ [])
    (hk : k ∈ tagMembers st t) :
    (storeGet ((expiresStep serialize (some t) arg kwargs r true st).2) k
        = none ∧
      k ∉ tagMembers ((expiresStep serialize (some t) arg kwargs r true st).2)
        t)
      ↔ strContains k (searchString kwargs) = true := by
  rw [expiresStep_snd_connected serialize t arg kwargs r st ht hkw,
    storeGet_invalidateKeys, tagMembers_invalidateKeys]
  constructor
  · rintro ⟨_, h2⟩
    by_contra hmatch
    apply h2
    rw [List.mem_filter]
    refine ⟨hk, ?_⟩
    rw [decide_eq_true_eq]
    intro hkfks
    exact hmatch (List.mem_filter.mp hkfks).2
  · intro hmatch
    have hkfks : k ∈ (tagMembers st t).filter
        (fun k2 => strContains k2 (searchString kwargs)) :=
      List.mem_filter.mpr ⟨hk, hmatch⟩
    refine ⟨if_pos hkfks, ?_⟩
    intro hcon
    have hdec := (List.mem_filter.mp hcon).2
    rw [decide_eq_true_eq] at hdec
    exact hdec hkfks

/-- C2 amended witness: the member "x(id=1)" of tag "users" contains the
concatenated search string "(id=1)", so the concrete invalidation deletes it
and removes it from the tag set. -/
theorem C2_amended_witness :
    ("users" ≠ "" ∧ [(⟨"id", "1", false⟩ : Kwarg)] ≠ [] ∧
      "x(id=1)" ∈ tagMembers ⟨[("x(id=1)", "v")], [("users", ["x(id=1)"])]⟩
        "users") ∧
    storeGet ((expiresStep (fun s : String => s) (some "users") none
        [⟨"id", "1", false⟩] "r" true
        ⟨[("x(id=1)", "v")], [("users", ["x(id=1)"])]⟩).2) "x(id=1)"
      = none ∧
    "x(id=1)" ∉ tagMembers ((expiresStep (fun s : String => s) (some "users")
        none [⟨"id", "1", false⟩] "r" true
        ⟨[("x(id=1)", "v")], [("users", ["x(id=1)"])]⟩).2) "users" :=
  ⟨⟨by decide, by decide, by decide⟩,
    (C2_amended_concatenated_match (fun s : String => s) none
        [⟨"id", "1", false⟩] "r"
        ⟨[("x(id=1)", "v")], [("users", ["x(id=1)"])]⟩ "users" "x(id=1)"
        (by decide) (by decide) (by decide)).mpr (by decide)⟩

/-- C3 counterexample: starting from the empty store, a single miss-path
population with tag "t" whose cache write fails (success flag false) still
adds the key to the tag set: afterward "k" is a member of tag "t" while no
entry for "k" was ever written, refuting "never adds a key to a tag set
unless the write succeeded". -/
theorem C3_counterexample_member_without_write :
    (cacheStep (fun s : String => s) (.int 60) (some "t") "k" (some "v")
        ⟨true, false, none, false⟩ ⟨[], []⟩).2
      = (⟨[], [("t", ["k"])]⟩ : Store) ∧
    "k" ∈ tagMembers (⟨[], [("t", ["k"])]⟩ : Store) "t" ∧
    storeGet (⟨[], [("t", ["k"])]⟩ : Store) "k" = none := by
  refine ⟨by decide, by decide, rfl⟩

/-- C3 amended: a key present in a tag's set after a `cache` call was either
already a member before the call, or was added by this call's miss-path
population that supplied that tag (connected, cacheable, key absent, handler
completed) — whether or not the cache write succeeded, so membership may
reference an entry that was never stored. -/
theorem C3_amended_membership_provenance {α : Type} (serialize : α → String)
    (expire : Expire) (tag : Option String) (key : String)
    (handler : Option α) (ctx : CacheCtx) (st : Store) (t k : String)
    (hmem : k ∈ tagMembers
      ((cacheStep serialize expire tag key handler ctx st).2) t) :
    k ∈ tagMembers st t ∨
      (tag = some t ∧ k = key ∧ ctx.connected = true ∧
        ctx.notCacheable = false ∧ storeGet st key = none ∧
        ∃ r, handler = some r) := by
  cases hcc : ctx.connected with
  | false =>
    have hg : (!ctx.connected || ctx.notCacheable) = true := by simp [hcc]
    cases handler <;> simp [cacheStep, hg] at hmem <;> exact Or.inl hmem
  | true =>
    cases hnn : ctx.notCacheable with
    | true =>
      have hg : (!ctx.connected || ctx.notCacheable) = true := by simp [hnn]
      cases handler <;> simp [cacheStep, hg] at hmem <;> exact Or.inl hmem
    | false =>
      have hg : (!ctx.connected || ctx.notCacheable) = false := by
        simp [hcc, hnn]
      cases hsg : storeGet st key with
      | some payload =>
        by_cases hnm :
            requested_resource_not_modified ctx.reqValidator payload = true
        · simp [cacheStep, hg, hsg, hnm] at hmem
          exact Or.inl hmem
        · simp [cacheStep, hg, hsg, hnm] at hmem
          exact Or.inl hmem
      | none =>
        cases handler with
        | none =>
          simp [cacheStep, hg, hsg] at hmem
          exact Or.inl hmem
        | some r =>
          cases hws : ctx.writeSucceeds with
          | true =>
            by_cases htg : pyTruthy tag = true
            · cases tag with
              | none => simp [pyTruthy] at htg
              | some t2 =>
                have hmem2 : k ∈ tagMembers
                    (add_key_to_tag_set (storeSet st key (serialize r)) t2
                      key) t := by
                  simpa [cacheStep, hg, hsg, htg, hws] using hmem
                rcases mem_tagMembers_add _ _ _ _ _ hmem2 with h | ⟨h1, h2⟩
                · rw [tagMembers_storeSet] at h
                  exact Or.inl h
                · exact Or.inr ⟨by rw [h1], h2, rfl, rfl, rfl, r, rfl⟩
            · have hmem2 : k ∈ tagMembers (storeSet st key (serialize r))
                  t := by
                simpa [cacheStep, hg, hsg, htg, hws] using hmem
              rw [tagMembers_storeSet] at hmem2
              exact Or.inl hmem2
          | false =>
            by_cases htg : pyTruthy tag = true
            · cases tag with
              | none => simp [pyTruthy] at htg
              | some t2 =>
                have hmem2 : k ∈ tagMembers (add_key_to_tag_set st t2 key)
                    t := by
                  simpa [cacheStep, hg, hsg, htg, hws] using hmem
                rcases mem_tagMembers_add _ _ _ _ _ hmem2 with h | ⟨h1, h2⟩
                · exact Or.inl h
                · exact Or.inr ⟨by rw [h1], h2, rfl, rfl, rfl, r, rfl⟩
            · simp [cacheStep, hg, hsg, htg, hws] at hmem
              exact Or.inl hmem

/-- C3 amended witness: in the concrete failed-write population, "k" is a
member of tag "t" afterward, and the provenance disjunction holds for it. -/
theorem C3_amended_witness :
    "k" ∈ tagMembers ((cacheStep (fun s : String => s) (.int 60) (some "t")
        "k" (some "v") ⟨true, false, none, false⟩ ⟨[], []⟩).2) "t" ∧
    ("k" ∈ tagMembers (⟨[], []⟩ : Store) "t" ∨
      ((some "t" : Option String) = some "t" ∧ "k" = "k" ∧
        (⟨true, false, none, false⟩ : CacheCtx).connected = true ∧
        (⟨true, false, none, false⟩ : CacheCtx).notCacheable = false ∧
        storeGet (⟨[], []⟩ : Store) "k" = none ∧
        ∃ r, (some "v" : Option String) = some r)) :=
  ⟨by decide,
    C3_amended_membership_provenance (fun s : String => s) (.int 60)
      (some "t") "k" (some "v") ⟨true, false, none, false⟩ ⟨[], []⟩ "t" "k"
      (by decide)⟩

end FastApiRedisCache
